import Mathlib

/-!
Verification development for the coin-handler layer of cryptotoken-converter.

The development shallowly embeds the three concrete handlers found under
`payments/coin_handlers` — `BitsharesManager`, `SteemEngineManager` and
`SteemManager` — as pure Lean functions over explicit chain states.  Python
`Decimal` values are modelled as exact rationals (the module-wide context is
`ROUND_DOWN`, i.e. truncation toward zero, and every quantity the handlers
manipulate is exactly representable), raised exceptions are modelled with
`Except`, and the remote ledger is an explicit state record threaded through
each operation, with a broadcast log recording every network mutation.
-/

namespace CTC

/-- The error taxonomy of `payments.coin_handlers.base.exceptions`, together
with the built-in Python exceptions the handlers raise directly
(`AttributeError`, `ArithmeticError`, the `raise NotImplemented(...)` in
`BitsharesManager.balance`).  `nativeLibraryError` stands for an exception of
an underlying client library escaping the adapter unmapped. -/
inductive Err where
  | accountNotFound
  | tokenNotFound
  | notEnoughBalance
  | authorityMissing
  | issuerKeyError
  | arithmeticError
  | attributeError
  | notImplementedError
  | nativeLibraryError
  deriving DecidableEq, Repr

/-- Truncation of a rational toward zero — the kernel of Python `Decimal`
rounding under `ROUND_DOWN` (set module-wide in every handler file). -/
def truncTowardZero (q : ℚ) : ℤ :=
  if 0 ≤ q then ⌊q⌋ else -⌊-q⌋

/-- Trimming an amount to `p` digits after the decimal point, rounding toward
zero: models `('{0:.' + str(precision) + 'f}').format(amount)` followed by
`Decimal(str_amount)` under the `ROUND_DOWN` context
(`BitsharesManager.send` lines 352–354, `BitsharesManager.issue` lines 235–237). -/
def normalizeAmount (a : ℚ) (p : ℕ) : ℚ :=
  (truncTowardZero (a * 10 ^ p) : ℚ) / 10 ^ p

/-- `BitsharesManager.is_amount_above_minimum`: `amount` compared against one
minimum fractional unit `1 / 10 ** precision`. -/
def is_amount_above_minimum (amount : ℚ) (precision : ℕ) : Bool :=
  if amount < 1 / 10 ^ precision then false else true

lemma truncTowardZero_le_self (q : ℚ) (h : 0 ≤ q) : (truncTowardZero q : ℚ) ≤ q := by
  rw [truncTowardZero, if_pos h]
  exact Int.floor_le q

lemma normalizeAmount_le (a : ℚ) (p : ℕ) (h : 0 ≤ a) : normalizeAmount a p ≤ a := by
  have hp : (0:ℚ) < 10 ^ p := by positivity
  have hmul : (0:ℚ) ≤ a * 10 ^ p := by positivity
  have htr := truncTowardZero_le_self (a * 10 ^ p) hmul
  have : (truncTowardZero (a * 10 ^ p) : ℚ) / 10 ^ p ≤ a * 10 ^ p / 10 ^ p :=
    div_le_div_of_nonneg_right htr (le_of_lt hp)
  simpa [normalizeAmount, mul_div_assoc, div_self (ne_of_gt hp)] using this

lemma normalizeAmount_den (a : ℚ) (p : ℕ) :
    ∃ n : ℤ, normalizeAmount a p = (n : ℚ) / 10 ^ p :=
  ⟨truncTowardZero (a * 10 ^ p), rfl⟩

/-- Whitespace characters removed by Python `str.strip()`. -/
def pyIsSpace (c : Char) : Bool :=
  c == ' ' || c == '\t' || c == '\n' || c == '\r' || c == '\x0b' || c == '\x0c'

/-- Python `str.strip()`: drop leading and trailing whitespace. -/
def pyStrip (s : String) : String :=
  ⟨((s.toList.dropWhile pyIsSpace).reverse.dropWhile pyIsSpace).reverse⟩

/-- Python `str.lower()` as the handlers use it (account names and memos are
ASCII): lower-case every character. -/
def pyLower (s : String) : String :=
  ⟨s.toList.map Char.toLower⟩

/-- `steemengine.helpers.empty` as the handlers use it on optional strings
(the helper lives outside the sources; modelled from the spec, which treats a
missing or blank value as absent): true for Python `None` and for `''`. -/
def emptyOpt : Option String → Bool
  | none => true
  | some s => s == ""

/-- A token/asset as the handlers read it from the network. -/
structure Asset where
  precision : ℕ
  issuer : String
  deriving DecidableEq, Repr

/-- The result dict returned by the handlers' `send` / `issue` operations
(`from` is a Python keyword-style field, rendered here as `fromAccount`). -/
structure TransferResult where
  txid : Option String
  coin : String
  amount : ℚ
  fee : ℚ
  fromAccount : String
  send_type : String
  deriving DecidableEq, Repr

/-- A broadcast Bitshares network mutation recorded by the model. -/
inductive BtsOp where
  | transfer (source target : String) (amountRaw feeRaw : ℤ)
  | assetIssue (issuer target : String) (amountRaw : ℤ)
  deriving DecidableEq, Repr

/-- State of the remote Bitshares node as the adapter observes it:
`getAsset` models `get_asset_obj`, `accountExists` models a non-`None`
`get_account_obj`, `balanceOf` models `get_decimal_from_amount` of
`account.balance(symbol)`, `feeRaw` is the transfer fee the node's fee
schedule reports (in raw units of the transferred asset, as
`add_required_fees` returns it), `hasKeys` tells whether the wallet holds the
active/memo keys for an account, and `broadcasts` logs every broadcast
operation. -/
structure BtsChain where
  getAsset : String → Option Asset
  accountExists : String → Bool
  balanceOf : String → String → ℚ
  feeRaw : ℕ
  hasKeys : String → Bool
  broadcasts : List BtsOp

/-- Add `d` to the recorded balance of `acct` in `sym`. -/
def adjustBal (f : String → String → ℚ) (acct sym : String) (d : ℚ) :
    String → String → ℚ :=
  fun a s => if a = acct ∧ s = sym then f a s + d else f a s

/-- The per-symbol configuration a `BitsharesManager` instance carries:
`symbol` (upper-cased), the display symbol `orig_symbol`, and
`coin.our_account`. -/
structure BtsManager where
  symbol : String
  origSymbol : String
  ourAccount : String
  deriving DecidableEq, Repr

/-- Source-account resolution shared by `send` (lines 339–343): take
`from_address` if non-empty, else `coin.our_account`, else fail with
`AttributeError`. -/
def resolveSource (from_address : Option String) (ourAccount : String) :
    Except Err String :=
  if emptyOpt from_address then
    if ourAccount == "" then .error .attributeError else .ok ourAccount
  else .ok (from_address.getD "")

/-- The fee-deduction tail of `BitsharesManager.send` (lines 371–430): build
the provisional transfer, query the fee, subtract it, reject if the remaining
raw amount is below one unit, then sign and broadcast (a missing key maps to
`AuthorityMissing`).  `normRaw` is the normalized amount in raw units. -/
def BtsManager.sendFeePhase (m : BtsManager) (st : BtsChain) (p : ℕ)
    (normRaw : ℤ) (fromAcc address : String) :
    Except Err TransferResult × BtsChain :=
  let feeRaw : ℤ := st.feeRaw
  let afterRaw : ℤ := normRaw - feeRaw
  if afterRaw < 1 then
    (.error .arithmeticError, st)
  else if st.hasKeys fromAcc = false then
    (.error .authorityMissing, st)
  else
    (.ok { txid := none, coin := m.origSymbol, amount := (afterRaw : ℚ) / 10 ^ p,
           fee := (feeRaw : ℚ) / 10 ^ p, fromAccount := fromAcc,
           send_type := "send" },
     { st with
        balanceOf := adjustBal
          (adjustBal st.balanceOf fromAcc m.symbol (-((normRaw : ℚ) / 10 ^ p)))
          address m.symbol ((afterRaw : ℚ) / 10 ^ p),
        broadcasts := st.broadcasts ++ [.transfer fromAcc address afterRaw feeRaw] })

/-- `BitsharesManager.send` (lines 301–430).  The pair carries the chain state
after the call; every error leaves the chain untouched because the code raises
before broadcasting. -/
def BtsManager.send (m : BtsManager) (st : BtsChain) (amount : ℚ)
    (address : String) (memo : Option String) (from_address : Option String) :
    Except Err TransferResult × BtsChain :=
  match resolveSource from_address m.ourAccount with
  | .error e => (.error e, st)
  | .ok fromAcc =>
    -- set_wallet_keys loads the key material for fromAcc (BitsharesMixin, outside
    -- src); missing authority surfaces at broadcast time, modelled in sendFeePhase.
    match st.getAsset m.symbol with
    | none => (.error .tokenNotFound, st)
    | some asset =>
      let p := asset.precision
      let normRaw := truncTowardZero (amount * 10 ^ p)
      let normAmount : ℚ := (normRaw : ℚ) / 10 ^ p
      if is_amount_above_minimum normAmount p = false then
        (.error .arithmeticError, st)
      else if st.accountExists fromAcc = false then
        (.error .accountNotFound, st)
      else if st.accountExists address = false then
        (.error .accountNotFound, st)
      else if st.balanceOf fromAcc m.symbol < normAmount then
        (.error .notEnoughBalance, st)
      else
        m.sendFeePhase st p normRaw fromAcc address

/-- `BitsharesManager.issue` (lines 200–288): asset lookup, precision trim,
minimum check, destination lookup, then key acquisition and broadcast (both a
missing wallet key and a missing authority map to `IssuerKeyError`).  On
success the node mints `normAmount` to `address`; the issuance fee is paid in
BTS, so the reported fee is 0. -/
def BtsManager.issue (m : BtsManager) (st : BtsChain) (amount : ℚ)
    (address : String) (memo : Option String) :
    Except Err TransferResult × BtsChain :=
  match st.getAsset m.symbol with
  | none => (.error .tokenNotFound, st)
  | some asset =>
    let p := asset.precision
    let normRaw := truncTowardZero (amount * 10 ^ p)
    let normAmount : ℚ := (normRaw : ℚ) / 10 ^ p
    if is_amount_above_minimum normAmount p = false then
      (.error .arithmeticError, st)
    else if st.accountExists address = false then
      (.error .accountNotFound, st)
    else if st.hasKeys address = false then
      (.error .issuerKeyError, st)
    else
      (.ok { txid := none, coin := m.origSymbol, amount := normAmount, fee := 0,
             fromAccount := address, send_type := "issue" },
       { st with
          balanceOf := adjustBal st.balanceOf address m.symbol normAmount,
          broadcasts := st.broadcasts ++ [.assetIssue address address normRaw] })

/-- `BitsharesManager.send_or_issue` (lines 432–457): try the send; on
`NotEnoughBalance` issue the requested amount to `coin.our_account`, then send
again from that account and relabel the result's `send_type` as `issue`. -/
def BtsManager.send_or_issue (m : BtsManager) (st : BtsChain) (amount : ℚ)
    (address : String) (memo : Option String) :
    Except Err TransferResult × BtsChain :=
  match m.send st amount address memo none with
  | (.error .notEnoughBalance, _) =>
    let acc := m.ourAccount
    match m.issue st amount acc
        (some ("Issuing to self before transfer to " ++ address)) with
    | (.error e, st1) => (.error e, st1)
    | (.ok _, st1) =>
      match m.send st1 amount address memo (some acc) with
      | (.error e, st2) => (.error e, st2)
      | (.ok tx, st2) => (.ok { tx with send_type := "issue" }, st2)
  | r => r

/-- `BitsharesManager.balance` (lines 148–177): any non-empty memo raises
(the code runs `raise NotImplemented(...)`); otherwise the address is stripped
and lower-cased, the account must exist, and a missing asset yields 0. -/
def BtsManager.balance (m : BtsManager) (st : BtsChain) (address : Option String)
    (memo : Option String) (memo_case : Bool) : Except Err ℚ :=
  let addr0 := address.getD m.ourAccount
  if emptyOpt memo = false then .error .notImplementedError
  else
    let addr := pyLower (pyStrip addr0)
    if st.accountExists addr = false then .error .accountNotFound
    else
      match st.getAsset m.symbol with
      | none => .ok (0 : ℚ)
      | some _ => .ok (st.balanceOf addr m.symbol)

/-- One failure of a remote lookup call, as Python exceptions: either the
library's account-does-not-exist exception, or any other remote failure
(timeout, malformed response, …). -/
inductive RpcFailure where
  | accountDoesNotExist
  | other
  deriving DecidableEq, Repr

/-- `BitsharesManager.address_valid` (lines 189–198), over the outcome of the
`get_account_obj` lookup: a bare `except:` turns every failure into `False`,
and a `None` account object is also `False`. -/
def btsAddressValid (lookup : Except RpcFailure (Option Unit)) : Bool :=
  match lookup with
  | .ok (some _) => true
  | .ok none => false
  | .error _ => false

/-- `SteemEngineManager.address_valid` (lines 146–153), over the outcome of
`eng_rpc.account_exists`: a bare `except:` turns every failure into `False`. -/
def seAddressValid (lookup : Except RpcFailure Bool) : Bool :=
  match lookup with
  | .ok b => b
  | .error _ => false

/-- `SteemManager.address_valid` (lines 132–143), over the outcome of the beem
`Account(address, ...)` constructor: only `AccountDoesNotExistsException` is
caught (→ `False`); any other failure propagates uncaught. -/
def steemAddressValid (lookup : Except RpcFailure Unit) : Except RpcFailure Bool :=
  match lookup with
  | .ok _ => .ok true
  | .error .accountDoesNotExist => .ok false
  | .error e => .error e

/-- An entry of `eng_rpc.list_transactions`, with the fields
`SteemEngineManager.balance` reads. -/
structure SeTx where
  toAccount : String
  symbol : String
  memo : String
  quantity : ℚ
  deriving DecidableEq, Repr

/-- State of the SteemEngine RPC as `SteemEngineManager` observes it.
`rpcTxid` is the `transaction_id` field of a successful issuance result, when
the RPC reports one; `broadcasts` logs each `(symbol, to, amount)` issuance
that reached the network. -/
structure SeChain where
  getToken : String → Option Asset
  accountExists : String → Bool
  issuerKeyOk : Bool
  tokenBalance : String → String → ℚ
  listTransactions : String → String → List SeTx
  rpcTxid : Option String
  broadcasts : List (String × String × ℚ)

/-- Per-symbol configuration of a `SteemEngineManager` instance. -/
structure SeManager where
  symbol : String
  ourAccount : String
  deriving DecidableEq, Repr

/-- The transaction filter inside the memo loop of `SteemEngineManager.balance`
(lines 130–132): the transfer must be inbound to `addr` in `symbol`, and its
stripped memo must equal the (already stripped) requested memo `q`, or — when
the search is case-insensitive — equal `q` lower-cased. -/
def seTxCounted (addr symbol q : String) (memo_case : Bool) (t : SeTx) : Bool :=
  (t.toAccount == addr) && (t.symbol == symbol) &&
    ((pyStrip t.memo == q) || (!memo_case && (pyStrip t.memo == pyLower q)))

/-- The accumulation loop of `SteemEngineManager.balance` (lines 128–133):
`bal` starts at 0 and each counted transfer adds its quantity. -/
def seMemoSum (addr symbol q : String) (memo_case : Bool) (txs : List SeTx) : ℚ :=
  txs.foldl
    (fun bal t => if seTxCounted addr symbol q memo_case t then bal + t.quantity else bal)
    0

/-- `SteemEngineManager.balance` (lines 111–134): lower-case the address,
strip the memo; with no (or blank) memo return the token balance, otherwise
sum the quantities of the matching inbound transfers. -/
def SeManager.balance (m : SeManager) (st : SeChain) (address : Option String)
    (memo : Option String) (memo_case : Bool) : ℚ :=
  let addr := pyLower (address.getD m.ourAccount)
  let memoS : Option String := memo.map (fun s => pyStrip s)
  if emptyOpt memoS then st.tokenBalance addr m.symbol
  else seMemoSum addr m.symbol (memoS.getD "") memo_case
    (st.listTransactions addr m.symbol)

/-- `SteemEngineManager.issue` (lines 155–209).  `get_token` failures are
neither mapped into the shared taxonomy nor followed by any amount check: a
`Decimal` amount is used exactly as passed (only `float` inputs are trimmed),
and no minimum-unit test happens before `issue_token` is invoked.  The
library's account and key failures surface during the `issue_token` call and
are mapped to `AccountNotFound` / `IssuerKeyError`. -/
def SeManager.issue (m : SeManager) (st : SeChain) (amount : ℚ)
    (address : String) : Except Err TransferResult × SeChain :=
  match st.getToken m.symbol with
  | none => (.error .nativeLibraryError, st)
  | some token =>
    if st.accountExists address = false then (.error .accountNotFound, st)
    else if st.issuerKeyOk = false then (.error .issuerKeyError, st)
    else
      (.ok { txid := st.rpcTxid, coin := m.symbol, amount := amount, fee := 0,
             fromAccount := token.issuer, send_type := "issue" },
       { st with broadcasts := st.broadcasts ++ [(m.symbol, address, amount)] })

/-! ### Helper lemmas about the Bitshares send pipeline -/

lemma sendFeePhase_ok_fields (m : BtsManager) (st : BtsChain) (p : ℕ)
    (normRaw : ℤ) (fromAcc address : String) (r : TransferResult)
    (h : (m.sendFeePhase st p normRaw fromAcc address).1 = .ok r) :
    r = { txid := none, coin := m.origSymbol,
          amount := ((normRaw - st.feeRaw : ℤ) : ℚ) / 10 ^ p,
          fee := ((st.feeRaw : ℤ) : ℚ) / 10 ^ p,
          fromAccount := fromAcc, send_type := "send" } := by
  unfold BtsManager.sendFeePhase at h
  dsimp only at h
  split_ifs at h <;>
    first
      | exact (Except.ok.inj (show Except.ok _ = Except.ok r from h)).symm
      | exact absurd h (by simp)

lemma sendFeePhase_no_balance_error (m : BtsManager) (st : BtsChain) (p : ℕ)
    (normRaw : ℤ) (fromAcc address : String) :
    (m.sendFeePhase st p normRaw fromAcc address).1 ≠ .error .notEnoughBalance := by
  unfold BtsManager.sendFeePhase
  dsimp only
  split_ifs <;> simp

lemma send_ok_elim (m : BtsManager) (st : BtsChain) (amount : ℚ)
    (address : String) (memo from_address : Option String) (r : TransferResult)
    (asset : Asset)
    (hasset : st.getAsset m.symbol = some asset)
    (hok : (m.send st amount address memo from_address).1 = .ok r) :
    ∃ fromAcc, resolveSource from_address m.ourAccount = .ok fromAcc ∧
      (m.sendFeePhase st asset.precision
        (truncTowardZero (amount * 10 ^ asset.precision)) fromAcc address).1
        = .ok r := by
  rcases hsrc : resolveSource from_address m.ourAccount with e | fromAcc
  · simp only [BtsManager.send, hsrc] at hok
    exact absurd hok (by simp)
  · refine ⟨fromAcc, rfl, ?_⟩
    simp only [BtsManager.send, hsrc, hasset] at hok
    split_ifs at hok <;> first | exact absurd hok (by simp) | exact hok

lemma send_reaches_fee_phase
    (m : BtsManager) (st : BtsChain) (amount : ℚ) (address : String)
    (memo from_address : Option String) (fromAcc : String) (asset : Asset)
    (hsrc : resolveSource from_address m.ourAccount = .ok fromAcc)
    (hasset : st.getAsset m.symbol = some asset)
    (hmin : is_amount_above_minimum (normalizeAmount amount asset.precision)
              asset.precision = true)
    (hfrom : st.accountExists fromAcc = true)
    (hto : st.accountExists address = true)
    (hbal : ¬ st.balanceOf fromAcc m.symbol < normalizeAmount amount asset.precision) :
    m.send st amount address memo from_address =
      m.sendFeePhase st asset.precision
        (truncTowardZero (amount * 10 ^ asset.precision)) fromAcc address := by
  have hmin' : is_amount_above_minimum
      ((truncTowardZero (amount * 10 ^ asset.precision) : ℚ) / 10 ^ asset.precision)
      asset.precision = true := hmin
  rw [normalizeAmount] at hbal
  simp only [BtsManager.send, hsrc, hasset, hmin', hfrom, hto]
  rw [if_neg (show ¬(true = false) by simp), if_neg (show ¬(true = false) by simp),
      if_neg (show ¬(true = false) by simp), if_neg hbal]

lemma send_balance_error
    (m : BtsManager) (st : BtsChain) (amount : ℚ) (address : String)
    (memo from_address : Option String) (fromAcc : String) (asset : Asset)
    (hsrc : resolveSource from_address m.ourAccount = .ok fromAcc)
    (hasset : st.getAsset m.symbol = some asset)
    (hmin : is_amount_above_minimum (normalizeAmount amount asset.precision)
              asset.precision = true)
    (hfrom : st.accountExists fromAcc = true)
    (hto : st.accountExists address = true)
    (hbal : st.balanceOf fromAcc m.symbol < normalizeAmount amount asset.precision) :
    m.send st amount address memo from_address = (.error .notEnoughBalance, st) := by
  have hmin' : is_amount_above_minimum
      ((truncTowardZero (amount * 10 ^ asset.precision) : ℚ) / 10 ^ asset.precision)
      asset.precision = true := hmin
  rw [normalizeAmount] at hbal
  simp only [BtsManager.send, hsrc, hasset, hmin', hfrom, hto]
  rw [if_neg (show ¬(true = false) by simp), if_neg (show ¬(true = false) by simp),
      if_neg (show ¬(true = false) by simp), if_pos hbal]

/-! ### Concrete data for witnesses -/

def demoAsset : Asset := { precision := 0, issuer := "platform" }

def demoMgr : BtsManager :=
  { symbol := "TOK", origSymbol := "TOK", ourAccount := "platform" }

def demoChain : BtsChain :=
  { getAsset := fun s => if s = "TOK" then some demoAsset else none,
    accountExists := fun a => (a == "platform") || (a == "alice"),
    balanceOf := fun a s => if a = "platform" ∧ s = "TOK" then 5 else 0,
    feeRaw := 2,
    hasKeys := fun a => a == "platform",
    broadcasts := [] }

/-! ### Claim theorems for the Bitshares send pipeline -/

/-- C2: on the fee-in-asset backend, the insufficient-balance check compares
the source balance against the full normalized amount before any fee is
touched: once the earlier steps pass, `send` fails with `NotEnoughBalance`
exactly when balance < normalized amount, and otherwise proceeds to the
fee-deduction phase. -/
theorem bts_send_balance_check_before_fee
    (m : BtsManager) (st : BtsChain) (amount : ℚ) (address : String)
    (memo from_address : Option String) (fromAcc : String) (asset : Asset)
    (hsrc : resolveSource from_address m.ourAccount = .ok fromAcc)
    (hasset : st.getAsset m.symbol = some asset)
    (hmin : is_amount_above_minimum (normalizeAmount amount asset.precision)
              asset.precision = true)
    (hfrom : st.accountExists fromAcc = true)
    (hto : st.accountExists address = true) :
    ((m.send st amount address memo from_address).1 = .error .notEnoughBalance
        ↔ st.balanceOf fromAcc m.symbol < normalizeAmount amount asset.precision)
    ∧ (¬ st.balanceOf fromAcc m.symbol < normalizeAmount amount asset.precision →
        m.send st amount address memo from_address =
          m.sendFeePhase st asset.precision
            (truncTowardZero (amount * 10 ^ asset.precision)) fromAcc address) := by
  constructor
  · constructor
    · intro h
      by_contra hbal
      rw [send_reaches_fee_phase m st amount address memo from_address fromAcc
        asset hsrc hasset hmin hfrom hto hbal] at h
      exact sendFeePhase_no_balance_error m st asset.precision
        (truncTowardZero (amount * 10 ^ asset.precision)) fromAcc address h
    · intro hbal
      rw [send_balance_error m st amount address memo from_address fromAcc
        asset hsrc hasset hmin hfrom hto hbal]
  · exact send_reaches_fee_phase m st amount address memo from_address fromAcc
      asset hsrc hasset hmin hfrom hto

/-- C2 witness: at the concrete state, balance 5 against a requested 7 is
short, and against a requested 3 is sufficient. -/
theorem bts_send_balance_check_before_fee_witness :
    ((demoMgr.send demoChain 7 "alice" none none).1 = .error .notEnoughBalance
        ↔ demoChain.balanceOf "platform" demoMgr.symbol < normalizeAmount 7 demoAsset.precision)
    ∧ ((demoMgr.send demoChain 3 "alice" none none).1 = .error .notEnoughBalance
        ↔ demoChain.balanceOf "platform" demoMgr.symbol < normalizeAmount 3 demoAsset.precision) :=
  ⟨(bts_send_balance_check_before_fee demoMgr demoChain 7 "alice" none none
      "platform" demoAsset (by rfl) (by rfl)
      (by norm_num [is_amount_above_minimum, normalizeAmount, truncTowardZero, demoAsset])
      (by rfl) (by rfl)).1,
   (bts_send_balance_check_before_fee demoMgr demoChain 3 "alice" none none
      "platform" demoAsset (by rfl) (by rfl)
      (by norm_num [is_amount_above_minimum, normalizeAmount, truncTowardZero, demoAsset])
      (by rfl) (by rfl)).1⟩

/-- C3: whenever the Bitshares `send` succeeds, the reported amount plus the
reported fee equals the normalized requested amount, exactly. -/
theorem bts_send_fee_subtraction_invariant
    (m : BtsManager) (st : BtsChain) (amount : ℚ) (address : String)
    (memo from_address : Option String) (r : TransferResult)
    (asset : Asset)
    (hasset : st.getAsset m.symbol = some asset)
    (hok : (m.send st amount address memo from_address).1 = .ok r) :
    r.amount + r.fee = normalizeAmount amount asset.precision := by
  obtain ⟨fromAcc, -, hphase⟩ := send_ok_elim m st amount address memo
    from_address r asset hasset hok
  have hr := sendFeePhase_ok_fields m st asset.precision
    (truncTowardZero (amount * 10 ^ asset.precision)) fromAcc address r hphase
  rw [hr]
  show ((truncTowardZero (amount * 10 ^ asset.precision) - (st.feeRaw : ℤ) : ℤ) : ℚ)
        / 10 ^ asset.precision + ((st.feeRaw : ℤ) : ℚ) / 10 ^ asset.precision
      = normalizeAmount amount asset.precision
  rw [normalizeAmount, div_add_div_same]
  push_cast
  ring_nf

/-- C3 witness: a concrete successful send of 3 with fee 2 reports amount 1
and fee 2, summing to the normalized request. -/
theorem bts_send_fee_subtraction_invariant_witness :
    ({ txid := none, coin := "TOK", amount := 1, fee := 2,
       fromAccount := "platform", send_type := "send" } : TransferResult).amount
      + ({ txid := none, coin := "TOK", amount := 1, fee := 2,
           fromAccount := "platform", send_type := "send" } : TransferResult).fee
      = normalizeAmount 3 demoAsset.precision := by
  refine bts_send_fee_subtraction_invariant demoMgr demoChain 3 "alice" none none
    _ demoAsset (by rfl) ?_
  show (demoMgr.send demoChain 3 "alice" none none).1 = _
  norm_num +decide [BtsManager.send, BtsManager.sendFeePhase, resolveSource,
    emptyOpt, demoMgr, demoChain, demoAsset, truncTowardZero,
    is_amount_above_minimum]

/-- C8: when the computed network fee leaves less than one minimum unit
`1 / 10 ^ precision`, the Bitshares `send` fails with `ArithmeticError` and the
chain state — the broadcast log included — is exactly the input state, so
nothing was broadcast. -/
theorem bts_send_fee_below_minimum_aborts
    (m : BtsManager) (st : BtsChain) (amount : ℚ) (address : String)
    (memo from_address : Option String) (fromAcc : String) (asset : Asset)
    (hsrc : resolveSource from_address m.ourAccount = .ok fromAcc)
    (hasset : st.getAsset m.symbol = some asset)
    (hmin : is_amount_above_minimum (normalizeAmount amount asset.precision)
              asset.precision = true)
    (hfrom : st.accountExists fromAcc = true)
    (hto : st.accountExists address = true)
    (hbal : ¬ st.balanceOf fromAcc m.symbol < normalizeAmount amount asset.precision)
    (hlow : normalizeAmount amount asset.precision
              - (st.feeRaw : ℚ) / 10 ^ asset.precision
              < 1 / 10 ^ asset.precision) :
    m.send st amount address memo from_address = (.error .arithmeticError, st) := by
  rw [send_reaches_fee_phase m st amount address memo from_address fromAcc
    asset hsrc hasset hmin hfrom hto hbal]
  have hp : (0:ℚ) < 10 ^ asset.precision := by positivity
  have h1 : ((truncTowardZero (amount * 10 ^ asset.precision) : ℚ)
      - (st.feeRaw : ℚ)) / 10 ^ asset.precision < 1 / 10 ^ asset.precision := by
    rw [normalizeAmount] at hlow
    rwa [div_sub_div_same] at hlow
  have h2 : ((truncTowardZero (amount * 10 ^ asset.precision) : ℚ) - (st.feeRaw : ℚ))
      < 1 := by
    have := (div_lt_div_iff_of_pos_right hp).mp h1
    exact this
  have hraw : truncTowardZero (amount * 10 ^ asset.precision) - (st.feeRaw : ℤ) < 1 := by
    exact_mod_cast h2
  unfold BtsManager.sendFeePhase
  dsimp only
  rw [if_pos hraw]

/-- C8 witness: with fee 7 on a balance of 5 and a requested 5, the post-fee
raw amount is negative, so the send aborts with `ArithmeticError` leaving the
chain untouched. -/
theorem bts_send_fee_below_minimum_aborts_witness :
    demoMgr.send { demoChain with feeRaw := 7 } 5 "alice" none none =
      (.error .arithmeticError, { demoChain with feeRaw := 7 }) :=
  bts_send_fee_below_minimum_aborts demoMgr { demoChain with feeRaw := 7 } 5
    "alice" none none "platform" demoAsset rfl rfl
    (by norm_num [is_amount_above_minimum, normalizeAmount, truncTowardZero, demoAsset])
    (by decide) (by decide)
    (by norm_num [normalizeAmount, truncTowardZero, demoAsset, demoChain, demoMgr])
    (by norm_num [normalizeAmount, truncTowardZero, demoAsset])

/-- C9: a successful Bitshares `send` and a successful Bitshares `issue` both
report `txid = None` — the handler cannot recover the transaction ID after
broadcast. -/
theorem bts_txid_always_none
    (m : BtsManager) (st : BtsChain) (amount : ℚ) (address : String)
    (memo from_address : Option String) (r₁ r₂ : TransferResult) :
    ((m.send st amount address memo from_address).1 = .ok r₁ → r₁.txid = none) ∧
    ((m.issue st amount address memo).1 = .ok r₂ → r₂.txid = none) := by
  constructor
  · intro h
    rcases hasset : st.getAsset m.symbol with _ | asset
    · rcases hsrc : resolveSource from_address m.ourAccount with e | fromAcc
      · simp only [BtsManager.send, hsrc] at h
        exact absurd h (by simp)
      · simp only [BtsManager.send, hsrc, hasset] at h
        exact absurd h (by simp)
    · obtain ⟨fromAcc, -, hphase⟩ := send_ok_elim m st amount address memo
        from_address r₁ asset hasset h
      rw [sendFeePhase_ok_fields m st asset.precision
        (truncTowardZero (amount * 10 ^ asset.precision)) fromAcc address r₁ hphase]
  · intro h
    rcases hasset : st.getAsset m.symbol with _ | asset
    · simp only [BtsManager.issue, hasset] at h
      exact absurd h (by simp)
    · simp only [BtsManager.issue, hasset] at h
      split_ifs at h <;>
        first
          | (rw [← Except.ok.inj (show Except.ok _ = Except.ok r₂ from h)])
          | exact absurd h (by simp)

/-- C9 witness: the result of a concrete successful send carries `txid = none`
(the issue conjunct is instantiated at the same concrete result). -/
theorem bts_txid_always_none_witness :
    ({ txid := none, coin := "TOK", amount := 1, fee := 2,
       fromAccount := "platform", send_type := "send" } : TransferResult).txid
      = none :=
  (bts_txid_always_none demoMgr demoChain 3 "alice" none none
    { txid := none, coin := "TOK", amount := 1, fee := 2,
      fromAccount := "platform", send_type := "send" }
    { txid := none, coin := "TOK", amount := 1, fee := 2,
      fromAccount := "platform", send_type := "send" }).1
    (by norm_num +decide [BtsManager.send, BtsManager.sendFeePhase, resolveSource,
      emptyOpt, demoMgr, demoChain, demoAsset, truncTowardZero,
      is_amount_above_minimum])

/-- C1: the send-or-issue fallback.  If the first send fails with
`NotEnoughBalance`, the orchestrator runs `issue` for the requested amount
with the platform's own account as destination; a failure of that issue
propagates unchanged; on success it retries `send` with the source forced to
the platform account, propagating its error or returning its result with
`send_type` forced to `issue`.  If the first send fails with any other error,
`send_or_issue` returns exactly what `send` returned and attempts nothing
else. -/
theorem bts_send_or_issue_fallback
    (m : BtsManager) (st : BtsChain) (amount : ℚ) (address : String)
    (memo : Option String) :
    ((m.send st amount address memo none).1 = .error .notEnoughBalance →
      (∀ e, (m.issue st amount m.ourAccount
          (some ("Issuing to self before transfer to " ++ address))).1 = .error e →
          (m.send_or_issue st amount address memo).1 = .error e) ∧
      (∀ r₁, (m.issue st amount m.ourAccount
          (some ("Issuing to self before transfer to " ++ address))).1 = .ok r₁ →
        (∀ e, (m.send (m.issue st amount m.ourAccount
            (some ("Issuing to self before transfer to " ++ address))).2
            amount address memo (some m.ourAccount)).1 = .error e →
            (m.send_or_issue st amount address memo).1 = .error e) ∧
        (∀ tx, (m.send (m.issue st amount m.ourAccount
            (some ("Issuing to self before transfer to " ++ address))).2
            amount address memo (some m.ourAccount)).1 = .ok tx →
            (m.send_or_issue st amount address memo).1 =
              .ok { tx with send_type := "issue" })))
    ∧ (∀ e, e ≠ Err.notEnoughBalance →
        (m.send st amount address memo none).1 = .error e →
        m.send_or_issue st amount address memo = m.send st amount address memo none) := by
  constructor
  · intro hneb
    rcases hs : m.send st amount address memo none with ⟨res, st2⟩
    rw [hs] at hneb
    dsimp only at hneb
    subst hneb
    constructor
    · intro e he
      rcases hi : m.issue st amount m.ourAccount
          (some ("Issuing to self before transfer to " ++ address)) with ⟨ires, ist⟩
      rw [hi] at he
      dsimp only at he
      subst he
      simp only [BtsManager.send_or_issue, hs, hi]
    · intro r₁ hr₁
      rcases hi : m.issue st amount m.ourAccount
          (some ("Issuing to self before transfer to " ++ address)) with ⟨ires, ist⟩
      rw [hi] at hr₁
      dsimp only at hr₁
      subst hr₁
      constructor
      · intro e he
        dsimp only at he
        rcases hs2 : m.send ist amount address memo (some m.ourAccount)
          with ⟨res2, st3⟩
        rw [hs2] at he
        dsimp only at he
        subst he
        simp only [BtsManager.send_or_issue, hs, hi, hs2]
      · intro tx htx
        dsimp only at htx
        rcases hs2 : m.send ist amount address memo (some m.ourAccount)
          with ⟨res2, st3⟩
        rw [hs2] at htx
        dsimp only at htx
        subst htx
        simp only [BtsManager.send_or_issue, hs, hi, hs2]
  · intro e hne he
    rcases hs : m.send st amount address memo none with ⟨res, st2⟩
    rw [hs] at he
    dsimp only at he
    subst he
    cases e <;>
      first
        | exact absurd rfl hne
        | simp only [BtsManager.send_or_issue, hs]

/-- C1 witness — the spec's concrete scenario: platform balance 5, requested
send 10.  The first send fails with `NotEnoughBalance`, 10 is issued to the
platform account, the retried send from that account nets 8 after the fee of
2, and the final result is tagged `send_type = issue`. -/
theorem bts_send_or_issue_fallback_witness :
    (demoMgr.send_or_issue demoChain 10 "alice" none).1 =
      .ok { txid := none, coin := "TOK", amount := 8, fee := 2,
            fromAccount := "platform", send_type := "issue" } :=
  (((bts_send_or_issue_fallback demoMgr demoChain 10 "alice" none).1
      (by norm_num +decide [BtsManager.send, BtsManager.sendFeePhase,
        resolveSource, emptyOpt, demoMgr, demoChain, demoAsset, truncTowardZero,
        is_amount_above_minimum])).2
    { txid := none, coin := "TOK", amount := 10, fee := 0,
      fromAccount := "platform", send_type := "issue" }
    (by norm_num +decide [BtsManager.issue, demoMgr, demoChain, demoAsset,
      truncTowardZero, is_amount_above_minimum])).2
    { txid := none, coin := "TOK", amount := 8, fee := 2,
      fromAccount := "platform", send_type := "send" }
    (by norm_num +decide [BtsManager.send, BtsManager.sendFeePhase, BtsManager.issue,
      resolveSource, emptyOpt, adjustBal, demoMgr, demoChain, demoAsset,
      truncTowardZero, is_amount_above_minimum])

/-- C4 counterexample: normalization truncates toward zero, so on the negative
amount -0.05 at precision 1 it produces 0, which is strictly greater than the
input — the claimed `normalize(a, p) ≤ a` fails. -/
theorem normalize_truncation_counterexample :
    ¬ normalizeAmount (-1/20) 1 ≤ (-1/20 : ℚ) := by
  norm_num [normalizeAmount, truncTowardZero]

/-- C4 amended: for every nonnegative amount `a` and precision `p`, the
normalization performed at the start of `send` and `issue` yields a value with
at most `p` fractional digits (an integer multiple of `10 ^ -p`) that never
exceeds `a`.  (For negative amounts, truncation toward zero rounds up
instead.) -/
theorem normalize_truncates_nonneg (a : ℚ) (p : ℕ) (h : 0 ≤ a) :
    (∃ n : ℤ, normalizeAmount a p = (n : ℚ) / 10 ^ p) ∧ normalizeAmount a p ≤ a :=
  ⟨normalizeAmount_den a p, normalizeAmount_le a p h⟩

/-- C4 witness: the amended statement at `a = 1.57`, `p = 1`. -/
theorem normalize_truncates_nonneg_witness :
    (0:ℚ) ≤ 157/100 ∧
      ((∃ n : ℤ, normalizeAmount (157/100) 1 = (n : ℚ) / 10 ^ 1)
        ∧ normalizeAmount (157/100) 1 ≤ 157/100) :=
  ⟨by norm_num, normalize_truncates_nonneg (157/100) 1 (by norm_num)⟩

/-! ### Helper lemmas about the SteemEngine memo loop -/

lemma seMemoSum_shift (addr symbol q : String) (c : Bool) (txs : List SeTx) :
    ∀ init : ℚ,
      txs.foldl
        (fun bal t => if seTxCounted addr symbol q c t then bal + t.quantity else bal)
        init
      = init + seMemoSum addr symbol q c txs := by
  induction txs with
  | nil => intro init; simp [seMemoSum]
  | cons t ts ih =>
      intro init
      simp only [List.foldl_cons, seMemoSum]
      rw [ih, ih]
      split_ifs <;> ring

lemma seMemoSum_cons (addr symbol q : String) (c : Bool) (t : SeTx) (ts : List SeTx) :
    seMemoSum addr symbol q c (t :: ts)
      = (if seTxCounted addr symbol q c t then t.quantity else 0)
        + seMemoSum addr symbol q c ts := by
  simp only [seMemoSum, List.foldl_cons]
  rw [seMemoSum_shift]
  simp only [seMemoSum]
  split_ifs <;> ring

lemma seMemoSum_eq_filter_sum (addr symbol q : String) (c : Bool) (txs : List SeTx) :
    seMemoSum addr symbol q c txs
      = ((txs.filter (fun t => seTxCounted addr symbol q c t)).map
          (fun t => t.quantity)).sum := by
  induction txs with
  | nil => simp [seMemoSum]
  | cons t ts ih =>
      rw [seMemoSum_cons]
      by_cases h : seTxCounted addr symbol q c t = true
      · simp [List.filter_cons, h, ih]
      · simp [List.filter_cons, h, ih]

/-! ### Concrete SteemEngine data for witnesses and counterexamples -/

def seDemoMgr : SeManager := { symbol := "TOK", ourAccount := "platform" }

def seSpecTxs : List SeTx :=
  [{ toAccount := "acct", symbol := "TOK", memo := "A", quantity := 1 },
   { toAccount := "acct", symbol := "TOK", memo := "a", quantity := 2 },
   { toAccount := "acct", symbol := "TOK", memo := "B", quantity := 4 }]

def seSpecChain : SeChain :=
  { getToken := fun s => if s = "TOK" then some { precision := 3, issuer := "issuer" } else none,
    accountExists := fun _ => true,
    issuerKeyOk := true,
    tokenBalance := fun _ _ => 0,
    listTransactions := fun a s => if a = "acct" ∧ s = "TOK" then seSpecTxs else [],
    rpcTxid := none,
    broadcasts := [] }

def seStripChain : SeChain :=
  { seSpecChain with
      listTransactions := fun a s =>
        if a = "platform" ∧ s = "TOK" then
          [{ toAccount := "platform", symbol := "TOK", memo := " A ", quantity := 7 }]
        else [] }

/-! ### Claim theorems for SteemEngine and Steem -/

/-- C10: the SteemEngine memo-filtered balance strips both the requested memo
and each recorded memo, so a query memo and a recorded memo that differ only
in surrounding whitespace are treated as equal: the query result is invariant
under whitespace padding of the requested memo, and an inbound transfer whose
stripped memo equals the stripped request is counted into the sum. -/
theorem se_balance_memo_strip
    (m : SeManager) (st : SeChain) (address : Option String)
    (q q' : String) (memo_case : Bool) (t : SeTx) (txs : List SeTx)
    (hq : pyStrip q = pyStrip q')
    (hne : pyStrip q ≠ "")
    (hlist : st.listTransactions (pyLower (address.getD m.ourAccount)) m.symbol
      = t :: txs)
    (hto : t.toAccount = pyLower (address.getD m.ourAccount))
    (hsym : t.symbol = m.symbol)
    (hmemo : pyStrip t.memo = pyStrip q) :
    m.balance st address (some q) memo_case = m.balance st address (some q') memo_case
    ∧ m.balance st address (some q) memo_case
        = t.quantity + seMemoSum (pyLower (address.getD m.ourAccount)) m.symbol
            (pyStrip q) memo_case txs := by
  have hemp : emptyOpt (some (pyStrip q)) = false := by
    simp [emptyOpt]
    exact hne
  constructor
  · simp only [SeManager.balance, Option.map_some']
    rw [hq]
  · have hcnt : seTxCounted (pyLower (address.getD m.ourAccount)) m.symbol
        (pyStrip q) memo_case t = true := by
      simp [seTxCounted, hto, hsym, hmemo]
    simp only [SeManager.balance, Option.map_some', Option.getD_some, hemp,
      Bool.false_eq_true, if_false, hlist]
    rw [seMemoSum_cons, hcnt]
    simp

/-- C10 witness: a recorded memo `" A "` is counted for the query `"A"`, and
querying with `" A "` gives the same result as with `"A"`. -/
theorem se_balance_memo_strip_witness :
    (seDemoMgr.balance seStripChain none (some "A") true
      = seDemoMgr.balance seStripChain none (some " A ") true)
    ∧ seDemoMgr.balance seStripChain none (some "A") true
      = ({ toAccount := "platform", symbol := "TOK", memo := " A ",
           quantity := 7 } : SeTx).quantity
          + seMemoSum (pyLower (Option.getD none seDemoMgr.ourAccount))
              seDemoMgr.symbol (pyStrip "A") true [] :=
  se_balance_memo_strip seDemoMgr seStripChain none "A" " A " true
    { toAccount := "platform", symbol := "TOK", memo := " A ", quantity := 7 } []
    (by decide) (by decide) rfl rfl rfl (by decide)

/-- C5 counterexample: the SteemEngine "case-insensitive" comparison only
lower-cases the requested memo, so with a recorded memo `"A"` (amount 1, and
inbound memos `"a"`, `"B"` of 2 and 4 besides) the query for `"a"` with the
case flag off returns only 2, even though `"A"` equals `"a"` up to case — the
claimed case-insensitive sum would be 3. -/
theorem se_balance_case_insensitive_counterexample :
    seDemoMgr.balance seSpecChain (some "acct") (some "a") false = 2
    ∧ pyLower "A" = "a"
    ∧ (2 : ℚ) ≠ 3 := by
  refine ⟨?_, by decide, by norm_num⟩
  norm_num +decide [SeManager.balance, seMemoSum, seTxCounted, pyStrip, pyIsSpace,
    emptyOpt, seDemoMgr, seSpecChain, seSpecTxs]

/-- C5 amended: on the SteemEngine backend, the memo-filtered balance sums the
inbound transfers whose stripped recorded memo equals the stripped requested
memo exactly, or — when the case flag is off — equals the lower-cased stripped
requested memo; on the spec's example (inbound memos A, a, B of 1, 2, 4) the
query for "A" yields 3 case-insensitively and 1 case-sensitively.  The
Bitshares backend raises on any memo-filtered balance query instead of
summing. -/
theorem se_balance_memo_amended
    (m : SeManager) (st : SeChain) (address : Option String) (q : String)
    (memo_case : Bool) (hne : pyStrip q ≠ "") :
    (m.balance st address (some q) memo_case
      = (((st.listTransactions (pyLower (address.getD m.ourAccount)) m.symbol).filter
            (fun t => seTxCounted (pyLower (address.getD m.ourAccount)) m.symbol
              (pyStrip q) memo_case t)).map (fun t => t.quantity)).sum)
    ∧ seDemoMgr.balance seSpecChain (some "acct") (some "A") false = 3
    ∧ seDemoMgr.balance seSpecChain (some "acct") (some "A") true = 1
    ∧ (∀ (bm : BtsManager) (bst : BtsChain) (baddr : Option String) (bc : Bool),
        bm.balance bst baddr (some q) bc = .error .notImplementedError) := by
  have hemp : emptyOpt (some (pyStrip q)) = false := by
    simp [emptyOpt]
    exact hne
  refine ⟨?_, ?_, ?_, ?_⟩
  · simp only [SeManager.balance, Option.map_some', Option.getD_some, hemp,
      Bool.false_eq_true, if_false]
    rw [seMemoSum_eq_filter_sum]
  · norm_num +decide [SeManager.balance, seMemoSum, seTxCounted, pyStrip, pyIsSpace,
      emptyOpt, seDemoMgr, seSpecChain, seSpecTxs]
  · norm_num +decide [SeManager.balance, seMemoSum, seTxCounted, pyStrip, pyIsSpace,
      emptyOpt, seDemoMgr, seSpecChain, seSpecTxs]
  · intro bm bst baddr bc
    have hq : emptyOpt (some q) = false := by
      simp [emptyOpt]
      intro h
      exact hne (by rw [h]; rfl)
    simp [BtsManager.balance, hq]

/-- C5 witness: the amended statement instantiated at the spec's example
query. -/
theorem se_balance_memo_amended_witness :
    (seDemoMgr.balance seSpecChain (some "acct") (some "A") false
      = (((seSpecChain.listTransactions
            (pyLower (Option.getD (some "acct") seDemoMgr.ourAccount))
            seDemoMgr.symbol).filter
            (fun t => seTxCounted
              (pyLower (Option.getD (some "acct") seDemoMgr.ourAccount))
              seDemoMgr.symbol (pyStrip "A") false t)).map
          (fun t => t.quantity)).sum)
    ∧ seDemoMgr.balance seSpecChain (some "acct") (some "A") false = 3
    ∧ seDemoMgr.balance seSpecChain (some "acct") (some "A") true = 1
    ∧ (∀ (bm : BtsManager) (bst : BtsChain) (baddr : Option String) (bc : Bool),
        bm.balance bst baddr (some "A") bc = .error .notImplementedError) :=
  se_balance_memo_amended seDemoMgr seSpecChain (some "acct") "A" false (by decide)

/-- C7 counterexample: the SteemEngine `issue` performs no minimum-unit check:
an amount of 0.0001 on a precision-3 token — below one minimum unit — is not
rejected with `ArithmeticError`; the issuance reaches the network and succeeds,
contradicting the claim that every backend checks the normalized amount before
any network mutation. -/
theorem se_issue_no_minimum_check_counterexample :
    is_amount_above_minimum (1/10000) 3 = false
    ∧ (seDemoMgr.issue seSpecChain (1/10000) "bob").1
        = .ok { txid := none, coin := "TOK", amount := 1/10000, fee := 0,
                fromAccount := "issuer", send_type := "issue" }
    ∧ (seDemoMgr.issue seSpecChain (1/10000) "bob").2.broadcasts
        = [("TOK", "bob", 1/10000)] := by
  refine ⟨by norm_num [is_amount_above_minimum], ?_, ?_⟩
  · norm_num +decide [SeManager.issue, seDemoMgr, seSpecChain]
  · norm_num +decide [SeManager.issue, seDemoMgr, seSpecChain]

/-- C7 amended: on the Bitshares backend, `issue` checks its preconditions in
the order asset existence (`TokenNotFound`), normalized amount above the
minimum unit (`ArithmeticError`), destination existence (`AccountNotFound`),
signer authority (`IssuerKeyError`), each failing before any network mutation
(the chain state is returned untouched).  The SteemEngine backend does not
perform the minimum-amount check. -/
theorem bts_issue_precondition_order
    (m : BtsManager) (st : BtsChain) (amount : ℚ) (address : String)
    (memo : Option String) :
    (st.getAsset m.symbol = none →
      m.issue st amount address memo = (.error .tokenNotFound, st))
    ∧ ∀ asset, st.getAsset m.symbol = some asset →
        (is_amount_above_minimum (normalizeAmount amount asset.precision)
            asset.precision = false →
          m.issue st amount address memo = (.error .arithmeticError, st))
        ∧ (is_amount_above_minimum (normalizeAmount amount asset.precision)
              asset.precision = true →
            (st.accountExists address = false →
              m.issue st amount address memo = (.error .accountNotFound, st))
            ∧ (st.accountExists address = true → st.hasKeys address = false →
                m.issue st amount address memo = (.error .issuerKeyError, st))) := by
  constructor
  · intro h
    simp only [BtsManager.issue, h]
  · intro asset h
    constructor
    · intro hmin
      have hmin' : is_amount_above_minimum
          ((truncTowardZero (amount * 10 ^ asset.precision) : ℚ) / 10 ^ asset.precision)
          asset.precision = false := hmin
      simp only [BtsManager.issue, h, hmin', if_pos]
    · intro hmin
      have hmin' : is_amount_above_minimum
          ((truncTowardZero (amount * 10 ^ asset.precision) : ℚ) / 10 ^ asset.precision)
          asset.precision = true := hmin
      constructor
      · intro hacct
        simp only [BtsManager.issue, h, hmin', hacct]
        simp
      · intro hacct hkeys
        simp only [BtsManager.issue, h, hmin', hacct, hkeys]
        simp

/-- C7 witness: issuing 0 on the Bitshares demo chain fails with
`ArithmeticError` and leaves the chain untouched. -/
theorem bts_issue_precondition_order_witness :
    demoMgr.issue demoChain 0 "alice" none = (.error .arithmeticError, demoChain) :=
  ((bts_issue_precondition_order demoMgr demoChain 0 "alice" none).2
    demoAsset rfl).1
    (by norm_num [is_amount_above_minimum, normalizeAmount, truncTowardZero, demoAsset])

/-- C6 counterexample: on the Steem backend a remote failure other than
account-does-not-exist (e.g. a timeout) is not caught by `address_valid`: the
exception propagates instead of the promised `False`. -/
theorem steem_address_valid_raises_counterexample :
    steemAddressValid (.error .other) = .error .other
    ∧ ∀ b, steemAddressValid (.error .other) ≠ .ok b :=
  ⟨rfl, by intro b; simp [steemAddressValid]⟩

/-- C6 amended: `address_valid` never raises on the Bitshares and SteemEngine
backends — any lookup failure degrades to `False` — while on the Steem backend
only the account-does-not-exist failure is converted to `False`: a successful
lookup yields `True` and every other remote failure propagates unchanged. -/
theorem address_valid_amended
    (blookup : Except RpcFailure (Option Unit))
    (slookup : Except RpcFailure Bool)
    (tlookup : Except RpcFailure Unit) :
    (∀ e, blookup = .error e → btsAddressValid blookup = false)
    ∧ (∀ e, slookup = .error e → seAddressValid slookup = false)
    ∧ (tlookup = .error .accountDoesNotExist → steemAddressValid tlookup = .ok false)
    ∧ (tlookup = .error .other → steemAddressValid tlookup = .error .other)
    ∧ (∀ u, tlookup = .ok u → steemAddressValid tlookup = .ok true) := by
  refine ⟨?_, ?_, ?_, ?_, ?_⟩
  · intro e he
    rw [he]
    rfl
  · intro e he
    rw [he]
    rfl
  · intro he
    rw [he]
    rfl
  · intro he
    rw [he]
    rfl
  · intro u hu
    rw [hu]
    rfl

/-- C6 witness: the amended statement at concrete lookup outcomes — a failing
Bitshares lookup, a failing SteemEngine lookup, and a Steem timeout-style
failure. -/
theorem address_valid_amended_witness :
    btsAddressValid (.error .other) = false
    ∧ seAddressValid (.error .other) = false
    ∧ steemAddressValid (.error .other) = .error .other :=
  ⟨(address_valid_amended (.error .other) (.error .other) (.error .other)).1
      .other rfl,
   (address_valid_amended (.error .other) (.error .other) (.error .other)).2.1
      .other rfl,
   (address_valid_amended (.error .other) (.error .other) (.error .other)).2.2.2.1
      rfl⟩

end CTC
